import Mathlib

/-!
Verification of the resilience middleware core of the spotify-playlist-finder
repository: the multi-tier cache (`CacheManager` and its tiers), the rate
limiter (`RateLimiter` with token-bucket / sliding-window / fixed-window
strategies and backoff), and the error classification / recovery engine
(`ErrorHandler`, `src/lib/error-utils/index.ts`).

The TypeScript source is shallowly embedded: JavaScript `Map` objects become
insertion-ordered association lists, `Date.now()` becomes an explicit
millisecond timestamp argument (a `Nat`; the embedding assumes nonnegative
wall-clock values, and where the source relies on `Date.now()` being nonzero
the theorems carry a `1 ≤ t` hypothesis), floating-point arithmetic that the
source floors to integers becomes exact integer arithmetic, and fractional
quantities (the burst multiplier, jitter) become rationals.  Fallible
operations return `Except`.  Fields and code paths that no statement below
depends on (operation logs, metrics counters, compression, serialized sizes,
console logging, HTTP headers, redis key prefixing, custom `keyGenerator` /
`onLimitReached` callbacks, and the distributed redis state path, which the
source guards behind `import.meta.server` and falls back from on any failure)
are omitted; each omission is local to the definition that would have carried
it and none of them feeds back into the modelled control flow.
-/

/-! ## JavaScript-level helpers -/

/-- Substring test on `List Char`, the semantics of JavaScript
`String.prototype.includes`: some suffix of the haystack starts with the
needle. -/
def containsSubList (needle : List Char) : List Char → Bool
  | [] => needle.isEmpty
  | c :: rest => needle.isPrefixOf (c :: rest) || containsSubList needle rest

/-- JavaScript `s.includes(sub)`. -/
def jsIncludes (s sub : String) : Bool :=
  containsSubList sub.toList s.toList

/-- JavaScript `a || b` for strings: `b` when `a` is absent or empty (falsy). -/
def jsOrStr (a : Option String) (b : String) : String :=
  match a with
  | some s => if s.isEmpty then b else s
  | none => b

/-- JavaScript string truthiness for an optional string: `none` when absent
or empty. -/
def truthyStr : Option String → Option String
  | some s => if s.isEmpty then none else some s
  | none => none

/-- Embeds `Math.ceil(a / b)` for nonnegative integers (`b > 0` intended). -/
def ceilDiv (a b : Nat) : Nat :=
  (a + b - 1) / b

/-- Lookup in a JavaScript `Map` modelled as an insertion-ordered
association list (`Map.prototype.get`). -/
def mapGet (k : String) : List (String × β) → Option β
  | [] => none
  | (k', v) :: rest => if k' == k then some v else mapGet k rest

/-- Embeds `Map.prototype.set`: overwrite in place, keeping insertion order, or
append when the key is new. -/
def mapSet (k : String) (v : β) : List (String × β) → List (String × β)
  | [] => [(k, v)]
  | (k', v') :: rest => if k' == k then (k, v) :: rest else (k', v') :: mapSet k v rest

/-- Embeds `Map.prototype.delete`: returns whether the key was present, and the map
with the key removed. -/
def mapDelete (k : String) : List (String × β) → Bool × List (String × β)
  | [] => (false, [])
  | (k', v') :: rest =>
    if k' == k then (true, rest)
    else
      let r := mapDelete k rest
      (r.1, (k', v') :: r.2)

/-! ## Error utilities (`src/lib/error-utils/index.ts`)

Data model of `ErrorDetails` / `AppError` and the `ErrorHandler` recovery
loop.  `metadata`, `context`, `cause` and `stack` are omitted (they never
influence the classification or the recovery counting), as are the logging
and metrics side channels of `handleError`. -/

inductive Severity
  | low
  | medium
  | high
  | critical
deriving DecidableEq

inductive Category
  | validation
  | network
  | auth
  | rate_limit
  | api
  | system
  | business
deriving DecidableEq

structure ErrorDetails where
  code : String
  message : String
  severity : Severity
  category : Category
  retryable : Bool
  userMessage : String
  suggestedActions : List String
deriving DecidableEq

/-- An `AppError` instance: its details plus the mutable per-instance
`recoveryAttempts` counter (`public recoveryAttempts = 0`). -/
structure AppError where
  details : ErrorDetails
  recoveryAttempts : Nat
deriving DecidableEq

/-- The optional fields accepted by the `AppError` constructor
(`Partial<ErrorDetails> & { message: string }`). -/
structure ErrorInit where
  message : String
  code : Option String
  severity : Option Severity
  category : Option Category
  retryable : Option Bool
  userMessage : Option String
  suggestedActions : Option (List String)

/-- The `AppError` constructor: fills the defaults exactly as the source does
(`code || 'UNKNOWN_ERROR'` is a falsy-or, `retryable ?? false` a nullish
coalescing, the rest are `||` on values that are never empty). -/
def AppError.create (i : ErrorInit) : AppError :=
  { details :=
      { code := jsOrStr i.code "UNKNOWN_ERROR"
        message := i.message
        severity := i.severity.getD Severity.medium
        category := i.category.getD Category.system
        retryable := i.retryable.getD false
        userMessage := jsOrStr i.userMessage "An unexpected error occurred"
        suggestedActions := i.suggestedActions.getD [] }
    recoveryAttempts := 0 }

/-- Embeds `class NetworkError extends AppError` (the `endpoint`/`statusCode`
metadata is dropped; the severity rule `statusCode && statusCode >= 500` is
kept, with `statusCode = 0` falsy exactly as in the source since
`0 >= 500` also fails). -/
def NetworkError.create (message : String) (statusCode : Option Nat) : AppError :=
  AppError.create
    { message := message
      code := some "NETWORK_ERROR"
      severity := some (match statusCode with
        | some c => if 500 ≤ c then Severity.high else Severity.medium
        | none => Severity.medium)
      category := some Category.network
      retryable := some true
      userMessage := some "Network connection failed. Please check your internet connection."
      suggestedActions := some ["Check your internet connection", "Try again in a moment"] }

/-- Embeds `class AuthenticationError extends AppError`. -/
def AuthenticationError.create (message : String) : AppError :=
  AppError.create
    { message := message
      code := some "AUTH_ERROR"
      severity := some Severity.medium
      category := some Category.auth
      retryable := some true
      userMessage := some "Authentication failed. Please refresh the page."
      suggestedActions := some ["Refresh the page", "Clear browser cache"] }

/-- Embeds `class RateLimitError extends AppError` (error-utils flavour; the
`retryAfter`/`limit` metadata and the interpolated suggestion text are
dropped). -/
def RateLimitAppError.create (message : String) : AppError :=
  AppError.create
    { message := message
      code := some "RATE_LIMIT_ERROR"
      severity := some Severity.medium
      category := some Category.rate_limit
      retryable := some true
      userMessage := some "Too many requests. Please wait a moment before trying again."
      suggestedActions := some ["Wait a moment before trying again"] }

/-- Embeds `ErrorHandler.normalizeError` on an untyped `Error` (an `AppError`
input is returned as-is by the source, so only the message-pattern cascade
is modelled; the final generic fallback is the literal `new AppError({...})`
call of the source). -/
def ErrorHandler.normalizeUntyped (msg : String) : AppError :=
  if jsIncludes msg "fetch failed" || jsIncludes msg "network" then
    NetworkError.create msg none
  else if jsIncludes msg "401" || jsIncludes msg "unauthorized" then
    AuthenticationError.create msg
  else if jsIncludes msg "429" || jsIncludes msg "rate limit" then
    RateLimitAppError.create msg
  else
    AppError.create
      { message := msg
        code := some "UNKNOWN_ERROR"
        severity := some Severity.medium
        category := some Category.system
        retryable := some false
        userMessage := some "An unexpected error occurred"
        suggestedActions := some ["Try refreshing the page"] }

/-- An `ErrorRecoveryStrategy`.  The effectful `recover(error, context)` call
is abstracted to its observable outcome `recoverOk`: `true` when the call
returns, `false` when it throws (the returned payload never feeds back into
`handleError`'s control flow). -/
structure RecoveryStrategy where
  name : String
  canRecover : AppError → Bool
  recoverOk : AppError → Bool
  maxAttempts : Nat
  backoffDelay : Nat

/-- How one `handleError` / `attemptRecovery` call ends: `success` when a
strategy's `recover` returned (the `{recovered: true}` path), `noRecovery`
when control falls through to the `{success: false}` / `recovered: false`
return, and `raised` when an exception escapes the call.  The `raised` case
arises because the source's catch block around `strategy.recover` binds the
exception as `recoveryerror` but reads `recoveryError.message` — an
undeclared identifier — so a throwing `recover` makes the catch block itself
raise a ReferenceError that propagates out of `attemptRecovery` and
`handleError`; the `continue`-to-next-strategy statement after it is
unreachable. -/
inductive RecoveryOutcome
  | success
  | noRecovery
  | raised
deriving DecidableEq

/-- Embeds `ErrorHandler.attemptRecovery`: iterate the registered strategies in
order; for the first whose `canRecover` matches and whose `maxAttempts`
exceeds the instance counter, increment `error.recoveryAttempts` and invoke
`recover`.  A success returns; a throw from `recover` is caught by a catch
block that itself raises a ReferenceError (its `recoveryError.message` read
is unbound), which escapes `attemptRecovery` — so at most one strategy's
`recover` runs per call, and a strategy is only skipped (without invoking
`recover`) when its predicate fails or `maxAttempts` is reached.  Returns
(outcome, the error instance as mutated so far, number of `recover`
invocations). -/
def ErrorHandler.attemptRecovery (strats : List RecoveryStrategy) (e : AppError) :
    RecoveryOutcome × AppError × Nat :=
  match strats with
  | [] => (RecoveryOutcome.noRecovery, e, 0)
  | s :: rest =>
    if s.canRecover e && decide (e.recoveryAttempts < s.maxAttempts) then
      let e' : AppError := { e with recoveryAttempts := e.recoveryAttempts + 1 }
      if s.recoverOk e' then
        (RecoveryOutcome.success, e', 1)
      else
        (RecoveryOutcome.raised, e', 1)
    else
      ErrorHandler.attemptRecovery rest e

/-- Embeds `ErrorHandler.handleError` on an already-normalized `AppError` (for a
typed error `normalizeError` is the identity): attempt recovery only when
the error is retryable and its instance counter is below the hard ceiling 3.
Returns (outcome, the error instance, number of `recover` invocations this
call made); a `raised` outcome is the ReferenceError from `attemptRecovery`
propagating out of `handleError`, which has no try/catch around it. -/
def ErrorHandler.handleError (strats : List RecoveryStrategy) (e : AppError) :
    RecoveryOutcome × AppError × Nat :=
  if e.details.retryable && decide (e.recoveryAttempts < 3) then
    ErrorHandler.attemptRecovery strats e
  else
    (RecoveryOutcome.noRecovery, e, 0)

/-- Runs `k` successive `handleError` calls on the same error instance
(modelling a caller that catches any escaping ReferenceError and hands the
same instance back in), returning the final instance and the total number
of `recover` invocations across all calls. -/
def ErrorHandler.handleErrorIter (strats : List RecoveryStrategy) (e : AppError) :
    Nat → AppError × Nat
  | 0 => (e, 0)
  | k + 1 =>
    let r := ErrorHandler.handleError strats e
    let rest := ErrorHandler.handleErrorIter strats r.2.1 k
    (rest.1, r.2.2 + rest.2)

/-- A registered strategy that always matches, always throws from `recover`,
and allows 4 attempts (the shape `addRecoveryStrategy` admits). -/
def alwaysFailingStrategy : RecoveryStrategy :=
  { name := "always-fail"
    canRecover := fun _ => true
    recoverOk := fun _ => false
    maxAttempts := 4
    backoffDelay := 0 }

/-- A retryable error instance with a fresh `recoveryAttempts` counter. -/
def retryableSystemError : AppError :=
  AppError.create
    { message := "transient failure"
      code := some "TRANSIENT"
      severity := some Severity.medium
      category := some Category.system
      retryable := some true
      userMessage := none
      suggestedActions := none }

/-- The classification of untyped error messages as the spec describes it
once amended to the source's actual patterns: substring cascade
`fetch failed`/`network` → network, `401`/`unauthorized` → auth,
`429`/`rate limit` → rate_limit, otherwise system and not retryable. -/
def classifyByMessageSpec (msg : String) : Category × Bool :=
  if jsIncludes msg "fetch failed" || jsIncludes msg "network" then
    (Category.network, true)
  else if jsIncludes msg "401" || jsIncludes msg "unauthorized" then
    (Category.auth, true)
  else if jsIncludes msg "429" || jsIncludes msg "rate limit" then
    (Category.rate_limit, true)
  else
    (Category.system, false)

/-! ## Cache manager (`src/unnamed/part_008`, cache half)

`CacheEntry`, the tier implementations and `CacheManager`.  Values carry an
arbitrary type `V`; for `getOrSet` the JavaScript value domain `T | null` is
instantiated as `Option A` with `none` playing `null`.  The `compressed` and
`size` entry fields (the latter a serialized-byte count that only feeds the
statistics) are omitted, as are per-tier hit/miss statistics.  Redis and
browser tiers are modelled by their reachability (`this.redis`/`this.storage`
non-null) plus their stored entries; a `faulty` tier stands for any backend
whose operations throw, which the `CacheManager` code must tolerate. -/

structure CacheEntry (V : Type) where
  key : String
  value : V
  createdAt : Nat
  expiresAt : Nat
  accessCount : Nat
  lastAccessed : Nat
  tags : List String
deriving DecidableEq

/-- Embeds `CacheTier.generateEntry`: `expiresAt = now + ttl * 1000`,
`lastAccessed = now`, zero access count. -/
def generateEntry (now : Nat) (key : String) (value : V) (ttl : Nat)
    (tags : List String) : CacheEntry V :=
  { key := key
    value := value
    createdAt := now
    expiresAt := now + ttl * 1000
    accessCount := 0
    lastAccessed := now
    tags := tags }

/-- Embeds `CacheTier.isExpired`: `Date.now() > entry.expiresAt`. -/
def isExpired (now : Nat) (e : CacheEntry V) : Bool :=
  decide (e.expiresAt < now)

/-- The `evictLeastRecentlyUsed` scan: walk the map in insertion order,
tracking the key with the strictly smallest `lastAccessed` seen so far,
starting from `oldestKey = null`, `oldestTime = Date.now()`. -/
def findOldestKey (entries : List (String × CacheEntry V))
    (oldestKey : Option String) (oldestTime : Nat) : Option String :=
  match entries with
  | [] => oldestKey
  | (k, e) :: rest =>
    if e.lastAccessed < oldestTime then
      findOldestKey rest (some k) e.lastAccessed
    else
      findOldestKey rest oldestKey oldestTime

/-- Embeds `MemoryCacheTier.evictLeastRecentlyUsed`: delete the found key, if any. -/
def MemoryCacheTier.evictLeastRecentlyUsed (now : Nat)
    (entries : List (String × CacheEntry V)) : List (String × CacheEntry V) :=
  match findOldestKey entries none now with
  | some k => (mapDelete k entries).2
  | none => entries

/-- Embeds `MemoryCacheTier.set`: evict first when `shouldEvict`
(`cache.size >= maxEntries`), then insert. -/
def MemoryCacheTier.set (maxEntries : Nat) (now : Nat) (key : String) (value : V)
    (ttl : Nat) (tags : List String) (entries : List (String × CacheEntry V)) :
    List (String × CacheEntry V) :=
  let entry := generateEntry now key value ttl tags
  let entries :=
    if maxEntries ≤ entries.length then
      MemoryCacheTier.evictLeastRecentlyUsed now entries
    else entries
  mapSet key entry entries

/-- An exception propagating out of a cache tier (`CacheError`; only the
code is carried). -/
structure CacheError where
  code : String
deriving DecidableEq

/-- Validity of a pattern string handed to JavaScript `new RegExp(...)`,
modelled exactly as far as the claims need it: a pattern whose first
character is a bare quantifier (`*`, `+`, `?`) is a SyntaxError
("nothing to repeat"), which is all the `*tag*` patterns built by
`invalidateByTags` ever exercise.  Other patterns are treated as
compilable, and what they match is abstracted by the `rt` parameter of the
`clear` operations. -/
def jsRegExpOk (p : String) : Bool :=
  match p.toList with
  | [] => true
  | c :: _ => !(c == '*' || c == '+' || c == '?')

/-- One storage backend of the tiered cache. -/
inductive TierState (V : Type)
  | memory (maxEntries : Nat) (entries : List (String × CacheEntry V))
  | redis (available : Bool) (entries : List (String × CacheEntry V))
  | browser (available : Bool) (entries : List (String × CacheEntry V))
  | faulty
deriving DecidableEq

/-- Does a tier physically hold an entry under `key`? -/
def TierState.holdsKey (key : String) : TierState V → Bool
  | TierState.memory _ entries => (mapGet key entries).isSome
  | TierState.redis _ entries => (mapGet key entries).isSome
  | TierState.browser _ entries => (mapGet key entries).isSome
  | TierState.faulty => false

/-- A tier's `get`: the memory tier deletes an expired entry and reports a
miss, otherwise bumps `accessCount`/`lastAccessed` and returns the entry;
redis/browser behave the same way behind their reachability check (their
internal try/catch already converts their own failures to a miss, so only
the `faulty` tier ever throws to the manager). -/
def TierState.get (now : Nat) (key : String) :
    TierState V → Except CacheError (Option (CacheEntry V) × TierState V)
  | TierState.memory maxE entries =>
    (match mapGet key entries with
     | none => Except.ok (none, TierState.memory maxE entries)
     | some e =>
       if isExpired now e then
         Except.ok (none, TierState.memory maxE (mapDelete key entries).2)
       else
         let e' : CacheEntry V :=
           { e with accessCount := e.accessCount + 1, lastAccessed := now }
         Except.ok (some e', TierState.memory maxE (mapSet key e' entries)))
  | TierState.redis avail entries =>
    if !avail then Except.ok (none, TierState.redis avail entries)
    else
      (match mapGet key entries with
       | none => Except.ok (none, TierState.redis avail entries)
       | some e =>
         if isExpired now e then
           Except.ok (none, TierState.redis avail (mapDelete key entries).2)
         else
           let e' : CacheEntry V :=
             { e with accessCount := e.accessCount + 1, lastAccessed := now }
           Except.ok (some e', TierState.redis avail (mapSet key e' entries)))
  | TierState.browser avail entries =>
    if !avail then Except.ok (none, TierState.browser avail entries)
    else
      (match mapGet key entries with
       | none => Except.ok (none, TierState.browser avail entries)
       | some e =>
         if isExpired now e then
           Except.ok (none, TierState.browser avail (mapDelete key entries).2)
         else
           let e' : CacheEntry V :=
             { e with accessCount := e.accessCount + 1, lastAccessed := now }
           Except.ok (some e', TierState.browser avail (mapSet key e' entries)))
  | TierState.faulty => Except.error { code := "TIER_UNREACHABLE" }

/-- A tier's `set`.  The memory tier runs its LRU eviction; redis/browser
write when reachable and do nothing otherwise (`if (!this.redis) return`);
the browser quota-eviction retry path is not exercised by any claim and the
reachable browser write is modelled as succeeding. -/
def TierState.set (now : Nat) (key : String) (value : V) (ttl : Nat)
    (tags : List String) : TierState V → Except CacheError (TierState V)
  | TierState.memory maxE entries =>
    Except.ok (TierState.memory maxE (MemoryCacheTier.set maxE now key value ttl tags entries))
  | TierState.redis avail entries =>
    if avail then
      Except.ok (TierState.redis avail (mapSet key (generateEntry now key value ttl tags) entries))
    else Except.ok (TierState.redis avail entries)
  | TierState.browser avail entries =>
    if avail then
      Except.ok (TierState.browser avail (mapSet key (generateEntry now key value ttl tags) entries))
    else Except.ok (TierState.browser avail entries)
  | TierState.faulty => Except.error { code := "TIER_UNREACHABLE" }

/-- A tier's `delete`.  The memory tier reports `Map.delete`'s answer
(present or not); redis and browser call `removeItem` and return `true`
whenever their backend is reachable, regardless of whether the key was
held. -/
def TierState.delete (key : String) :
    TierState V → Except CacheError (Bool × TierState V)
  | TierState.memory maxE entries =>
    let r := mapDelete key entries
    Except.ok (r.1, TierState.memory maxE r.2)
  | TierState.redis avail entries =>
    if avail then Except.ok (true, TierState.redis avail (mapDelete key entries).2)
    else Except.ok (false, TierState.redis avail entries)
  | TierState.browser avail entries =>
    if avail then Except.ok (true, TierState.browser avail (mapDelete key entries).2)
    else Except.ok (false, TierState.browser avail entries)
  | TierState.faulty => Except.error { code := "TIER_UNREACHABLE" }

/-- A tier's `clear(pattern?)`, with `rt p k` abstracting
`new RegExp(p).test(k)` for compilable patterns.  The memory tier compiles
the pattern first and lets the SyntaxError escape (no try/catch there);
redis returns 0 for any pattern ("pattern-based clearing not fully
implemented"); the browser tier constructs the RegExp inside its own
try/catch while collecting keys, so an uncompilable pattern yields 0 with
nothing deleted (and with no stored keys the loop never constructs it). -/
def TierState.clear (rt : String → String → Bool) (pattern : Option String) :
    TierState V → Except CacheError (Nat × TierState V)
  | TierState.memory maxE entries =>
    (match pattern with
     | some p =>
       if jsRegExpOk p then
         let deleted := entries.filter (fun kv => rt p kv.1)
         Except.ok (deleted.length,
           TierState.memory maxE (entries.filter (fun kv => !(rt p kv.1))))
       else Except.error { code := "REGEXP_SYNTAX" }
     | none => Except.ok (entries.length, TierState.memory maxE []))
  | TierState.redis avail entries =>
    if !avail then Except.ok (0, TierState.redis avail entries)
    else
      (match pattern with
       | some _ => Except.ok (0, TierState.redis avail entries)
       | none => Except.ok (entries.length, TierState.redis avail []))
  | TierState.browser avail entries =>
    if !avail then Except.ok (0, TierState.browser avail entries)
    else
      (match pattern with
       | some p =>
         if entries.isEmpty then Except.ok (0, TierState.browser avail entries)
         else if jsRegExpOk p then
           let deleted := entries.filter (fun kv => rt p kv.1)
           Except.ok (deleted.length,
             TierState.browser avail (entries.filter (fun kv => !(rt p kv.1))))
         else Except.ok (0, TierState.browser avail entries)
       | none => Except.ok (entries.length, TierState.browser avail []))
  | TierState.faulty => Except.error { code := "TIER_UNREACHABLE" }

/-- A tier's `set` under the manager's per-tier catch: a throwing tier is
logged and left as it was. -/
def tierSetCaught (now : Nat) (key : String) (value : V) (ttl : Nat)
    (tags : List String) (t : TierState V) : TierState V :=
  match TierState.set now key value ttl tags t with
  | Except.ok t' => t'
  | Except.error _ => t

/-- Embeds `CacheManager.promoteToHigherTiers`: write the hit entry into every
higher-priority tier with the remaining TTL
(`Math.max(0, Math.ceil((expiresAt - now) / 1000))`), swallowing per-tier
errors. -/
def promoteToHigherTiers (now : Nat) (key : String) (e : CacheEntry V)
    (higher : List (TierState V)) : List (TierState V) :=
  let remainingTtl := ceilDiv (e.expiresAt - now) 1000
  higher.map (tierSetCaught now key e.value remainingTtl e.tags)

/-- The tier loop of `CacheManager.get`: try each tier in priority order,
catching a throwing tier and moving on; on the first hit, promote to the
already-visited (higher-priority) tiers and return the entry's value.
`done` accumulates the tiers already visited. -/
def CacheManager.getLoop (now : Nat) (key : String) (done : List (TierState V)) :
    List (TierState V) → Except CacheError (Option V × List (TierState V))
  | [] => Except.ok (none, done)
  | t :: ts =>
    match TierState.get now key t with
    | Except.error _ => CacheManager.getLoop now key (done ++ [t]) ts
    | Except.ok (none, t') => CacheManager.getLoop now key (done ++ [t']) ts
    | Except.ok (some e, t') =>
      Except.ok (some e.value, promoteToHigherTiers now key e done ++ t' :: ts)

/-- Embeds `CacheManager.get`. -/
def CacheManager.get (now : Nat) (key : String) (tiers : List (TierState V)) :
    Except CacheError (Option V × List (TierState V)) :=
  CacheManager.getLoop now key [] tiers

/-- Embeds `CacheManager.set`: `ttl || defaultTtl` (so an explicit 0 falls back,
being falsy), written to every tier with per-tier errors swallowed
(`Promise.allSettled`). -/
def CacheManager.set (defaultTtl : Nat) (now : Nat) (key : String) (value : V)
    (ttl : Option Nat) (tags : List String) (tiers : List (TierState V)) :
    List (TierState V) :=
  let effectiveTtl := match ttl with
    | none => defaultTtl
    | some t => if t == 0 then defaultTtl else t
  tiers.map (tierSetCaught now key value effectiveTtl tags)

/-- Embeds `CacheManager.delete`: delete from every tier, catching per-tier errors
as `false`; the result is whether any tier reported success. -/
def CacheManager.delete (key : String) :
    List (TierState V) → Bool × List (TierState V)
  | [] => (false, [])
  | t :: ts =>
    let r := match TierState.delete key t with
      | Except.ok (b, t') => (b, t')
      | Except.error _ => (false, t)
    let rest := CacheManager.delete key ts
    (r.1 || rest.1, r.2 :: rest.2)

/-- Embeds `CacheManager.clear(pattern?)`: clear every tier, catching per-tier
errors as a 0 contribution, and sum the removed counts. -/
def CacheManager.clear (rt : String → String → Bool) (pattern : Option String) :
    List (TierState V) → Nat × List (TierState V)
  | [] => (0, [])
  | t :: ts =>
    let r := match TierState.clear rt pattern t with
      | Except.ok (n, t') => (n, t')
      | Except.error _ => (0, t)
    let rest := CacheManager.clear rt pattern ts
    (r.1 + rest.1, r.2 :: rest.2)

/-- Embeds `CacheManager.invalidateByTags`: for each tag, `clear` with the pattern
`*tag*` and sum the counts. -/
def CacheManager.invalidateByTags (rt : String → String → Bool) (tags : List String)
    (tiers : List (TierState V)) : Nat × List (TierState V) :=
  match tags with
  | [] => (0, tiers)
  | tag :: rest =>
    let r := CacheManager.clear rt (some ("*" ++ tag ++ "*")) tiers
    let r' := CacheManager.invalidateByTags rt rest r.2
    (r.1 + r'.1, r'.2)

/-- The JavaScript collapse of `T | null` when `T` is itself `A | null`:
what `getOrSet` observes from `this.get<T>(key)`. -/
def jsNullJoin : Option (Option A) → Option A
  | some v => v
  | none => none

/-- Embeds `CacheManager.getOrSet` at value type `A | null`: get; if the observed
value is not `null`, return it; otherwise invoke the factory (its value is
`factoryVal`), store it, and return it.  The final component records
whether the factory was invoked. -/
def CacheManager.getOrSet (defaultTtl : Nat) (now : Nat) (key : String)
    (factoryVal : Option A) (ttl : Option Nat) (tags : List String)
    (tiers : List (TierState (Option A))) :
    Except CacheError (Option A × List (TierState (Option A)) × Bool) :=
  match CacheManager.get now key tiers with
  | Except.error e => Except.error e
  | Except.ok (cached, tiers₁) =>
    match jsNullJoin cached with
    | some a => Except.ok (some a, tiers₁, false)
    | none =>
      let tiers₂ := CacheManager.set defaultTtl now key factoryVal ttl tags tiers₁
      Except.ok (factoryVal, tiers₂, true)

/-! ## Rate limiter (`src/unnamed/part_008`, rate-limit half)

`RateLimitConfig`/`RateLimitState`/`RateLimitResult`, the three strategy
classes, `BackoffCalculator` and the local-state path of
`RateLimiter.checkLimit`.  Timestamps are milliseconds (`Nat`).  The burst
multiplier is a rational, as `CommonRateLimits.api` uses `1.5`.
`Math.random()` in the jitter is threaded in as an explicit rational
`rand`.  The distributed redis mirror of the state (read before / written
after each check, with transparent fallback to the local map on any
failure) is modelled by its fallback, the local `states` map; headers,
metrics and the `onLimitReached`/`keyGenerator` callbacks are omitted. -/

structure BurstConfig where
  enabled : Bool
  multiplier : ℚ
  cooldown : Nat
deriving DecidableEq

inductive BackoffKind
  | exponential
  | linear
  | fibonacci
deriving DecidableEq

structure BackoffConfig where
  enabled : Bool
  strategy : BackoffKind
  baseDelay : Nat
  maxDelay : Nat
  jitter : Bool
deriving DecidableEq

inductive StrategyKind
  | tokenBucket
  | slidingWindow
  | fixedWindow
deriving DecidableEq

/-- The strategy names registered by `initializeStrategies`. -/
def StrategyKind.sname : StrategyKind → String
  | StrategyKind.tokenBucket => "token-bucket"
  | StrategyKind.slidingWindow => "sliding-window"
  | StrategyKind.fixedWindow => "fixed-window"

structure RateLimitConfig where
  requests : Nat
  window : Nat
  strategy : StrategyKind
  burst : Option BurstConfig
  backoff : Option BackoffConfig
deriving DecidableEq

/-- Embeds `RateLimitState`; `burstTokens` and `backoffUntil` start undefined. -/
structure RateLimitState where
  tokens : Nat
  lastRefill : Nat
  requestHistory : List Nat
  burstTokens : Option Nat
  backoffUntil : Option Nat
  consecutiveFailures : Nat
deriving DecidableEq

/-- The fresh per-key state built by `RateLimiter.getState`. -/
def initRateLimitState : RateLimitState :=
  { tokens := 0
    lastRefill := 0
    requestHistory := []
    burstTokens := none
    backoffUntil := none
    consecutiveFailures := 0 }

/-- Embeds `RateLimitResult` (headers omitted). -/
structure RateLimitResult where
  allowed : Bool
  limit : Nat
  remaining : Nat
  resetTime : Nat
  retryAfter : Option Nat
  backoffDelay : Option Nat
  burstUsed : Option Nat
  strategyName : String
deriving DecidableEq

/-- Embeds `RateLimitStrategy.calculateRetryAfter`:
`Math.max(0, Math.ceil((resetTime - Date.now()) / 1000))`. -/
def calculateRetryAfter (resetTime now : Nat) : Nat :=
  ceilDiv (resetTime - now) 1000

/-- The `!state.lastRefill` initialization of `TokenBucketStrategy.check`:
on first use (falsy `lastRefill`, i.e. 0), fill the bucket and stamp the
refill time. -/
def tbInit (cfg : RateLimitConfig) (st : RateLimitState) (now : Nat) : RateLimitState :=
  if st.lastRefill == 0 then
    { st with tokens := cfg.requests, lastRefill := now }
  else st

/-- The refill step of `TokenBucketStrategy.check`:
`tokensToAdd = Math.floor((timeElapsed / windowMs) * requests)`; when
positive, cap at `requests` and stamp `lastRefill = now`. -/
def tbRefill (cfg : RateLimitConfig) (st : RateLimitState) (now : Nat) : RateLimitState :=
  let windowMs := cfg.window * 1000
  let timeElapsed := now - st.lastRefill
  let tokensToAdd := timeElapsed * cfg.requests / windowMs
  if 0 < tokensToAdd then
    { st with tokens := min cfg.requests (st.tokens + tokensToAdd), lastRefill := now }
  else st

/-- The burst pool headroom:
`requests * multiplier - requests - (state.burstTokens || 0)` when burst is
enabled, else 0 (a rational, since the multiplier is fractional). -/
def tbBurstAvail (cfg : RateLimitConfig) (st : RateLimitState) : ℚ :=
  match cfg.burst with
  | some b =>
    if b.enabled then
      (cfg.requests : ℚ) * b.multiplier - (cfg.requests : ℚ) - ((st.burstTokens.getD 0 : Nat) : ℚ)
    else 0
  | none => 0

/-- Embeds `TokenBucketStrategy.check`. -/
def TokenBucketStrategy.check (cfg : RateLimitConfig) (st : RateLimitState) (now : Nat) :
    RateLimitResult × RateLimitState :=
  let windowMs := cfg.window * 1000
  let st₁ := tbRefill cfg (tbInit cfg st now) now
  let burstAvail := tbBurstAvail cfg st₁
  let totalAvail : ℚ := (st₁.tokens : ℚ) + burstAvail
  let allowed := decide (0 < totalAvail)
  let st₂ :=
    if allowed then
      if 0 < st₁.tokens then { st₁ with tokens := st₁.tokens - 1 }
      else if 0 < burstAvail then
        { st₁ with burstTokens := some (st₁.burstTokens.getD 0 + 1) }
      else st₁
    else st₁
  let resetTime := st₂.lastRefill + windowMs
  ({ allowed := allowed
     limit := cfg.requests
     remaining := st₂.tokens
     resetTime := resetTime
     retryAfter := if allowed then none else some (calculateRetryAfter resetTime now)
     backoffDelay := none
     burstUsed := st₂.burstTokens
     strategyName := "token-bucket" }, st₂)

/-- Whether a token-bucket check at `now` admits from the primary pool
(the `state.tokens > 0` branch of the admission, as opposed to a burst
admission): same refill as `TokenBucketStrategy.check`, then both the
overall admission test and a nonempty primary pool. -/
def tbPrimaryStep (cfg : RateLimitConfig) (st : RateLimitState) (now : Nat) : Bool :=
  let st₁ := tbRefill cfg (tbInit cfg st now) now
  decide (0 < (st₁.tokens : ℚ) + tbBurstAvail cfg st₁) && decide (0 < st₁.tokens)

/-- Run a sequence of token-bucket checks, counting primary-pool
admissions. -/
def tbRun (cfg : RateLimitConfig) : List Nat → RateLimitState → Nat × RateLimitState
  | [], st => (0, st)
  | t :: ts, st =>
    let p := tbPrimaryStep cfg st t
    let st' := (TokenBucketStrategy.check cfg st t).2
    let rest := tbRun cfg ts st'
    ((if p then 1 else 0) + rest.1, rest.2)

/-- Embeds `SlidingWindowStrategy.check`. -/
def SlidingWindowStrategy.check (cfg : RateLimitConfig) (st : RateLimitState) (now : Nat) :
    RateLimitResult × RateLimitState :=
  let windowMs := cfg.window * 1000
  let cutoff := now - windowMs
  let history := st.requestHistory.filter (fun t => decide (cutoff < t))
  let currentRequests := history.length
  let allowed := decide (currentRequests < cfg.requests)
  let history₂ := if allowed then history ++ [now] else history
  let resetTime := match history₂.head? with
    | some t => if t == 0 then now + windowMs else t + windowMs
    | none => now + windowMs
  ({ allowed := allowed
     limit := cfg.requests
     remaining := cfg.requests - currentRequests
     resetTime := resetTime
     retryAfter := if allowed then none else some (calculateRetryAfter resetTime now)
     backoffDelay := none
     burstUsed := none
     strategyName := "sliding-window" }, { st with requestHistory := history₂ })

/-- Run a sequence of sliding-window checks, recording for each check its
time, whether it was admitted, and the state after it. -/
def swTrace (cfg : RateLimitConfig) (st : RateLimitState) :
    List Nat → List (Nat × Bool × RateLimitState)
  | [] => []
  | t :: ts =>
    let r := SlidingWindowStrategy.check cfg st t
    (t, r.1.allowed, r.2) :: swTrace cfg r.2 ts

/-- The admission timestamps recorded by a prefix of a sliding-window
trace. -/
def admittedTimes (l : List (Nat × Bool × RateLimitState)) : List Nat :=
  (l.filter (fun x => x.2.1)).map (fun x => x.1)

/-- Embeds `FixedWindowStrategy.check`. -/
def FixedWindowStrategy.check (cfg : RateLimitConfig) (st : RateLimitState) (now : Nat) :
    RateLimitResult × RateLimitState :=
  let windowMs := cfg.window * 1000
  let windowStart := now / windowMs * windowMs
  let windowEnd := windowStart + windowMs
  let st₁ :=
    if st.lastRefill == 0 || decide (st.lastRefill < windowStart) then
      { st with tokens := 0, lastRefill := windowStart }
    else st
  let currentRequests := st₁.tokens
  let allowed := decide (currentRequests < cfg.requests)
  let st₂ := if allowed then { st₁ with tokens := st₁.tokens + 1 } else st₁
  ({ allowed := allowed
     limit := cfg.requests
     remaining := cfg.requests - currentRequests
     resetTime := windowEnd
     retryAfter := if allowed then none else some (calculateRetryAfter windowEnd now)
     backoffDelay := none
     burstUsed := none
     strategyName := "fixed-window" }, st₂)

/-- The strategy dispatch of `this.strategies.get(config.strategy)`: all
three strategies are registered by `initializeStrategies`. -/
def strategyCheck (kind : StrategyKind) (cfg : RateLimitConfig) (st : RateLimitState)
    (now : Nat) : RateLimitResult × RateLimitState :=
  match kind with
  | StrategyKind.tokenBucket => TokenBucketStrategy.check cfg st now
  | StrategyKind.slidingWindow => SlidingWindowStrategy.check cfg st now
  | StrategyKind.fixedWindow => FixedWindowStrategy.check cfg st now

/-- The iterative Fibonacci helper of `BackoffCalculator`. -/
def fibJs : Nat → Nat
  | 0 => 0
  | 1 => 1
  | n + 2 => fibJs (n + 1) + fibJs n

/-- Embeds `BackoffCalculator.calculateDelay`: strategy formula, clamp to
`maxDelay`, then optional jitter `delay * (0.5 + rand * 0.5)` followed by
`Math.floor`. -/
def BackoffCalculator.calculateDelay (attempt : Nat) (strategy : BackoffKind)
    (baseDelay maxDelay : Nat) (jitter : Bool) (rand : ℚ) : Nat :=
  let delay : Nat := match strategy with
    | BackoffKind.exponential => baseDelay * 2 ^ (attempt - 1)
    | BackoffKind.linear => baseDelay * attempt
    | BackoffKind.fibonacci => baseDelay * fibJs attempt
  let delay := min delay maxDelay
  if jitter then
    (Rat.floor ((delay : ℚ) * ((1 : ℚ) / 2 + rand * ((1 : ℚ) / 2)))).toNat
  else delay

/-- The context fields `generateKey` consults. -/
structure RateLimitContext where
  userId : Option String
  ip : Option String
  endpoint : Option String
deriving DecidableEq

/-- Embeds `RateLimiter.generateKey` without a custom `keyGenerator`: the limit
name, then `user:<id>` when `userId` is truthy else `ip:<ip>` when truthy,
then `endpoint:<e>` when truthy, joined with `:`. -/
def RateLimiter.generateKey (limitName : String) (ctx : RateLimitContext) : String :=
  let parts := [limitName]
  let parts := match truthyStr ctx.userId with
    | some u => parts ++ ["user:" ++ u]
    | none => match truthyStr ctx.ip with
      | some ip => parts ++ ["ip:" ++ ip]
      | none => parts
  let parts := match truthyStr ctx.endpoint with
    | some e => parts ++ ["endpoint:" ++ e]
    | none => parts
  String.intercalate ":" parts

/-- Embeds `RateLimiter.getState` on the local path: return the stored per-key
state, or create, store and return a fresh one. -/
def RateLimiter.getState (key : String) (states : List (String × RateLimitState)) :
    RateLimitState × List (String × RateLimitState) :=
  match mapGet key states with
  | some st => (st, states)
  | none => (initRateLimitState, mapSet key initRateLimitState states)

/-- The early-return result of `checkLimit` when the key is inside an
active backoff period: denied with `retryAfter = backoffDelay =
Math.ceil((backoffUntil - now) / 1000)`, without consulting the strategy
and without touching the state. -/
def RateLimiter.backoffEarlyResult (config : RateLimitConfig) (b now : Nat) :
    RateLimitResult :=
  let backoffDelay := ceilDiv (b - now) 1000
  { allowed := false
    limit := config.requests
    remaining := 0
    resetTime := b
    retryAfter := some backoffDelay
    backoffDelay := some backoffDelay
    burstUsed := none
    strategyName := config.strategy.sname }

/-- The body of `checkLimit` past the backoff early return: run the
configured strategy; on a denial with backoff enabled, bump
`consecutiveFailures`, compute the backoff delay and set `backoffUntil`
(reporting `Math.ceil(delay / 1000)` in the result); on an admission, reset
`consecutiveFailures` and clear `backoffUntil`; then save the state. -/
def RateLimiter.runStrategy (config : RateLimitConfig) (key : String)
    (st : RateLimitState) (states : List (String × RateLimitState)) (now : Nat)
    (rand : ℚ) : RateLimitResult × List (String × RateLimitState) :=
  let r := strategyCheck config.strategy config st now
  let result := r.1
  let st := r.2
  let step :=
    if !result.allowed && (match config.backoff with
        | some bo => bo.enabled
        | none => false) then
      match config.backoff with
      | some bo =>
        let cf := st.consecutiveFailures + 1
        let delay := BackoffCalculator.calculateDelay cf bo.strategy bo.baseDelay
          bo.maxDelay bo.jitter rand
        ({ result with backoffDelay := some (ceilDiv delay 1000) },
         { st with consecutiveFailures := cf, backoffUntil := some (now + delay) })
      | none => (result, st)
    else if result.allowed then
      (result, { st with consecutiveFailures := 0, backoffUntil := none })
    else (result, st)
  (step.1, mapSet key step.2 states)

/-- Embeds `RateLimiter.checkLimit` (local-state path): config lookup (throwing
`CONFIG_NOT_FOUND` when the name is unregistered), key derivation, state
fetch, the backoff early-return, then `runStrategy`.  Returns the result
and the updated state map, or the thrown error code. -/
def RateLimiter.checkLimit (configs : List (String × RateLimitConfig))
    (states : List (String × RateLimitState)) (limitName : String)
    (ctx : RateLimitContext) (now : Nat) (rand : ℚ) :
    Except String (RateLimitResult × List (String × RateLimitState)) :=
  match mapGet limitName configs with
  | none => Except.error "CONFIG_NOT_FOUND"
  | some config =>
    let key := RateLimiter.generateKey limitName ctx
    let s := RateLimiter.getState key states
    let st := s.1
    let states := s.2
    match st.backoffUntil with
    | some b =>
      if now < b then
        Except.ok (RateLimiter.backoffEarlyResult config b now, states)
      else Except.ok (RateLimiter.runStrategy config key st states now rand)
    | none => Except.ok (RateLimiter.runStrategy config key st states now rand)

/-! ## Concrete instances used by counterexamples and witnesses -/

/-- A request context carrying only an IP. -/
def rlCtx : RateLimitContext :=
  { userId := none, ip := some "1.2.3.4", endpoint := none }

/-- A token-bucket config: 2 requests per 1-second window, no burst, no
backoff. -/
def tbCfg2 : RateLimitConfig :=
  { requests := 2, window := 1, strategy := StrategyKind.tokenBucket
    burst := none, backoff := none }

/-- A fixed-window config: 2 requests per 60-second window. -/
def fwCfg : RateLimitConfig :=
  { requests := 2, window := 60, strategy := StrategyKind.fixedWindow
    burst := none, backoff := none }

/-- An auth-style config with exponential backoff enabled. -/
def boCfg : RateLimitConfig :=
  { requests := 5, window := 900, strategy := StrategyKind.fixedWindow
    burst := none
    backoff := some { enabled := true, strategy := BackoffKind.exponential
                      baseDelay := 1000, maxDelay := 60000, jitter := false } }

/-- A per-key state sitting inside an active backoff period until t=5000ms. -/
def backoffSt : RateLimitState :=
  { initRateLimitState with backoffUntil := some 5000, consecutiveFailures := 1 }

/-- A sliding-window config: 1 request per 60-second window. -/
def swCfg : RateLimitConfig :=
  { requests := 1, window := 60, strategy := StrategyKind.slidingWindow
    burst := none, backoff := none }

/-- The state after the single admitted sliding-window check of the C3
witness trace. -/
def swSt1 : RateLimitState :=
  { initRateLimitState with requestHistory := [1000] }

/-- The per-key state `checkLimit` saves in the C5 witness run (one
fixed-window admission at t=1000 in the window starting at 0). -/
def fwStOut : RateLimitState :=
  { tokens := 1, lastRefill := 0, requestHistory := []
    burstTokens := none, backoffUntil := none, consecutiveFailures := 0 }

/-- The result `checkLimit` returns in the C5 witness run. -/
def fwResOut : RateLimitResult :=
  { allowed := true, limit := 2, remaining := 2, resetTime := 60000
    retryAfter := none, backoffDelay := none, burstUsed := none
    strategyName := "fixed-window" }

/-- A live cache entry storing the JavaScript value `null`. -/
def nullEntry : CacheEntry (Option Nat) :=
  { key := "k", value := none, createdAt := 1, expiresAt := 100000
    accessCount := 0, lastAccessed := 1, tags := [] }

/-- What a tier's `delete` reports, as a function of the tier alone: the
memory tier reports whether the key was held, redis/browser report their
reachability, a throwing tier is caught as `false`. -/
def tierDeleteReports (key : String) : TierState V → Bool
  | TierState.memory _ entries => (mapGet key entries).isSome
  | TierState.redis avail _ => avail
  | TierState.browser avail _ => avail
  | TierState.faulty => false

/-! ## Helper lemmas -/

theorem mapGet_mapSet_self (k : String) (v : β) :
    ∀ m : List (String × β), mapGet k (mapSet k v m) = some v := by
  intro m
  induction m with
  | nil => simp [mapGet, mapSet]
  | cons kv rest ih =>
    by_cases h : kv.1 == k
    · simp [mapGet, mapSet, h]
    · simp [mapGet, mapSet, h, ih]

theorem mapDelete_fst (k : String) :
    ∀ m : List (String × β), (mapDelete k m).1 = (mapGet k m).isSome := by
  intro m
  induction m with
  | nil => simp [mapDelete, mapGet]
  | cons kv rest ih =>
    by_cases h : kv.1 == k
    · simp [mapDelete, mapGet, h]
    · simp [mapDelete, mapGet, h, ih]

theorem natDiv_add_le (a b c : Nat) (hc : 0 < c) : a / c + b / c ≤ (a + b) / c := by
  rw [Nat.le_div_iff_mul_le hc]
  calc (a / c + b / c) * c = a / c * c + b / c * c := by ring
    _ ≤ a + b := Nat.add_le_add (Nat.div_mul_le_self a c) (Nat.div_mul_le_self b c)

theorem natDiv_pred_le (W R : Nat) (hW : 0 < W) (hR : 0 < R) :
    (W - 1) * R / W ≤ R - 1 := by
  have h1 : (W - 1) * R < R * W := by
    calc (W - 1) * R < W * R := by
          exact (Nat.mul_lt_mul_right hR).mpr (Nat.sub_lt hW Nat.one_pos)
      _ = R * W := Nat.mul_comm W R
  have h2 : (W - 1) * R / W < R := (Nat.div_lt_iff_lt_mul hW).mpr h1
  omega

/-- After `attemptRecovery`, the instance counter has grown by exactly the
number of `recover` invocations, and — because a success returns and a
throw escapes as the catch block's ReferenceError — that number is at most
one. -/
theorem attemptRecovery_count (strats : List RecoveryStrategy) :
    ∀ e : AppError,
    ((ErrorHandler.attemptRecovery strats e).2.1).recoveryAttempts
      = e.recoveryAttempts + (ErrorHandler.attemptRecovery strats e).2.2 ∧
    (ErrorHandler.attemptRecovery strats e).2.2 ≤ 1 := by
  induction strats with
  | nil => intro e; simp [ErrorHandler.attemptRecovery]
  | cons s rest ih =>
    intro e
    simp only [ErrorHandler.attemptRecovery]
    by_cases h : (s.canRecover e && decide (e.recoveryAttempts < s.maxAttempts)) = true
    · simp only [h, if_true]
      by_cases h2 : s.recoverOk { e with recoveryAttempts := e.recoveryAttempts + 1 } = true
      · simp [h2]
      · simp [h2]
    · simp only [h, Bool.false_eq_true, if_false]
      exact ih e

/-- After one `handleError` call, the counter has grown by the number of
`recover` invocations; a call that invoked `recover` at all started below
the ceiling 3 and invoked it at most once. -/
theorem handleError_count (strats : List RecoveryStrategy) (e : AppError) :
    ((ErrorHandler.handleError strats e).2.1).recoveryAttempts
      = e.recoveryAttempts + (ErrorHandler.handleError strats e).2.2 ∧
    ((ErrorHandler.handleError strats e).2.2 = 0 ∨
      (e.recoveryAttempts < 3 ∧
        (ErrorHandler.handleError strats e).2.2 ≤ 1)) := by
  unfold ErrorHandler.handleError
  by_cases h : (e.details.retryable && decide (e.recoveryAttempts < 3)) = true
  · simp only [h, if_true]
    have := attemptRecovery_count strats e
    have h3 : e.recoveryAttempts < 3 := by
      have := Bool.and_elim_right h
      exact of_decide_eq_true this
    exact ⟨this.1, Or.inr ⟨h3, this.2⟩⟩
  · simp only [h, Bool.false_eq_true, if_false]
    exact ⟨by omega, by simp⟩

/-- Across iterated `handleError` calls the counter equals the running total
of `recover` invocations and never exceeds 3. -/
theorem handleErrorIter_bound (strats : List RecoveryStrategy) (k : Nat) :
    ∀ e : AppError, e.recoveryAttempts ≤ 3 →
    ((ErrorHandler.handleErrorIter strats e k).1).recoveryAttempts
      = e.recoveryAttempts + (ErrorHandler.handleErrorIter strats e k).2 ∧
    ((ErrorHandler.handleErrorIter strats e k).1).recoveryAttempts ≤ 3 := by
  induction k with
  | zero => intro e he; exact ⟨by simp [ErrorHandler.handleErrorIter], by
      simpa [ErrorHandler.handleErrorIter] using he⟩
  | succ k ih =>
    intro e he
    have hstep := handleError_count strats e
    have hnext : ((ErrorHandler.handleError strats e).2.1).recoveryAttempts ≤ 3 := by
      rcases hstep.2 with h0 | ⟨h3, hle⟩
      · omega
      · omega
    have := ih (ErrorHandler.handleError strats e).2.1 hnext
    simp only [ErrorHandler.handleErrorIter]
    constructor
    · omega
    · omega

/-! ## Claim C1 -/

/-- C1: across any number of `handleError` calls and all registered
strategies (including ones added via `addRecoveryStrategy`), `recover` is
invoked at most 3 times total on one error instance, and each invocation
increments the instance's `recoveryAttempts` counter before `recover` is
called — so the running total of invocations equals the counter.  The
bound holds because a `handleError` call invokes `recover` at most once
(a success returns, and a throwing `recover` escapes as the mis-bound
catch block's ReferenceError instead of continuing to the next strategy),
entry requires `recoveryAttempts < 3`, and the increment precedes every
invocation. -/
theorem c1_theorem (strats : List RecoveryStrategy) (e : AppError) (k : Nat)
    (h : e.recoveryAttempts = 0) :
    (ErrorHandler.handleErrorIter strats e k).2 ≤ 3 ∧
    ((ErrorHandler.handleErrorIter strats e k).1).recoveryAttempts
      = (ErrorHandler.handleErrorIter strats e k).2 := by
  have := handleErrorIter_bound strats k e (by omega)
  constructor
  · omega
  · omega

/-- C1 witness: the recovery bound evaluated on a concrete run (two
always-matching, always-throwing strategies of `maxAttempts = 4`, five
`handleError` calls on a fresh retryable instance). -/
theorem c1_witness :
    (ErrorHandler.handleErrorIter [alwaysFailingStrategy, alwaysFailingStrategy]
        retryableSystemError 5).2 ≤ 3 ∧
    ((ErrorHandler.handleErrorIter [alwaysFailingStrategy, alwaysFailingStrategy]
        retryableSystemError 5).1).recoveryAttempts
      = (ErrorHandler.handleErrorIter [alwaysFailingStrategy, alwaysFailingStrategy]
        retryableSystemError 5).2 :=
  c1_theorem [alwaysFailingStrategy, alwaysFailingStrategy] retryableSystemError 5 rfl

/-! ## Claim C7 -/

/-- C7 counterexample.  The claim (following the spec) says timeout phrasing
classifies as `network`; but `normalizeError` only tests for the substrings
`fetch failed` / `network` (the `timeout` pattern exists only in the
separate `isRetryableError` helper), so the untyped error message
"connection timeout" falls through to the generic `system`,
`retryable = false` fallback. -/
theorem c7_counterexample :
    (ErrorHandler.normalizeUntyped "connection timeout").details.category
        = Category.system ∧
    ¬ (ErrorHandler.normalizeUntyped "connection timeout").details.category
        = Category.network ∧
    (ErrorHandler.normalizeUntyped "connection timeout").details.retryable = false := by
  refine ⟨rfl, ?_, rfl⟩
  intro h
  rw [show (ErrorHandler.normalizeUntyped "connection timeout").details.category
      = Category.system from rfl] at h
  exact absurd h (by simp)

/-- C7 (amended): `normalizeError` classifies an untyped error by substring
cascade — `fetch failed`/`network` → network, `401`/`unauthorized` → auth,
`429`/`rate limit` → rate_limit (each retryable), anything else (including
plain timeout phrasing) → system with `retryable = false`; in particular
"request failed: 429 Too Many Requests" is `rate_limit` and retryable. -/
theorem c7_amended (msg : String) :
    ((ErrorHandler.normalizeUntyped msg).details.category,
      (ErrorHandler.normalizeUntyped msg).details.retryable)
        = classifyByMessageSpec msg ∧
    (ErrorHandler.normalizeUntyped "request failed: 429 Too Many Requests").details.category
        = Category.rate_limit ∧
    (ErrorHandler.normalizeUntyped "request failed: 429 Too Many Requests").details.retryable
        = true := by
  refine ⟨?_, rfl, rfl⟩
  unfold ErrorHandler.normalizeUntyped classifyByMessageSpec
  split_ifs <;> rfl

/-! ## Claim C6 -/

/-- C6: the code at the claim's failing input.  With `maxEntries = 1`, two
`MemoryCacheTier.set` calls in the same millisecond (`now = 5`) leave the
tier with 2 entries: `evictLeastRecentlyUsed` initializes its scan with
`oldestTime = Date.now()` and only picks an entry whose `lastAccessed` is
strictly earlier, so when every resident entry was touched in the current
millisecond nothing is evicted and the hard ceiling is exceeded —
contradicting the eviction the claim (and the spec's LRU-bound property)
requires. -/
theorem c6_code_eval :
    (MemoryCacheTier.set 1 5 "k2" (0 : Nat) 60 []
        (MemoryCacheTier.set 1 5 "k1" (0 : Nat) 60 [] [])).length = 2 ∧
    ¬ (MemoryCacheTier.set 1 5 "k2" (0 : Nat) 60 []
        (MemoryCacheTier.set 1 5 "k1" (0 : Nat) 60 [] [])).length ≤ 1 := by
  refine ⟨rfl, ?_⟩
  intro h
  rw [show (MemoryCacheTier.set 1 5 "k2" (0 : Nat) 60 []
      (MemoryCacheTier.set 1 5 "k1" (0 : Nat) 60 [] [])).length = 2 from rfl] at h
  omega

/-! ## Claim C2 -/

/-- C2 counterexample.  `checkLimit` with an unregistered configuration name
throws `RateLimitError('CONFIG_NOT_FOUND')` rather than returning a denial,
contradicting the claim that it never raises for any `configName`. -/
theorem c2_counterexample :
    RateLimiter.checkLimit [] [] "api" rlCtx 1000 0
      = Except.error "CONFIG_NOT_FOUND" := rfl

/-- The tier loop of `CacheManager.get` never propagates a tier error. -/
theorem getLoop_isOk {V : Type} (now : Nat) (key : String) :
    ∀ (rest done : List (TierState V)),
      (CacheManager.getLoop now key done rest).isOk = true := by
  intro rest
  induction rest with
  | nil => intro done; rfl
  | cons t ts ih =>
    intro done
    unfold CacheManager.getLoop
    rcases h : TierState.get now key t with e | p
    · exact ih (done ++ [t])
    · rcases p with ⟨o, t'⟩
      rcases o with _ | e
      · exact ih (done ++ [t'])
      · rfl

/-- C2 (amended): the cache's `get` never raises to its caller (each tier's
failure is caught and the loop continues, returning absent in the end), and
`checkLimit` never raises once the named configuration is registered (the
strategy table always holds all three strategies, and denials — including
backoff denials — are returned as results); the only raise is
`CONFIG_NOT_FOUND` for an unregistered name. -/
theorem c2_amended :
    (∀ (V : Type) (now : Nat) (key : String) (tiers : List (TierState V)),
      (CacheManager.get now key tiers).isOk = true) ∧
    (∀ (configs : List (String × RateLimitConfig))
      (states : List (String × RateLimitState)) (name : String)
      (ctx : RateLimitContext) (now : Nat) (rand : ℚ) (cfg : RateLimitConfig),
      mapGet name configs = some cfg →
      (RateLimiter.checkLimit configs states name ctx now rand).isOk = true) := by
  constructor
  · intro V now key tiers
    exact getLoop_isOk now key tiers []
  · intro configs states name ctx now rand cfg hc
    unfold RateLimiter.checkLimit
    rw [hc]
    dsimp only
    rcases hb : (RateLimiter.getState (RateLimiter.generateKey name ctx) states).1.backoffUntil with _ | b
    · rfl
    · by_cases hn : now < b
      · simp [hn, Except.isOk, Except.toBool]
      · simp [hn, Except.isOk, Except.toBool]

/-- C2 witness: the amended statement evaluated concretely — a get against
no tiers succeeds with absent, and `checkLimit` on a registered fixed-window
config returns without raising. -/
theorem c2_witness :
    (CacheManager.get 5 "k" ([] : List (TierState Nat))).isOk = true ∧
    (RateLimiter.checkLimit [("fw", fwCfg)] [] "fw" rlCtx 1000 0).isOk = true :=
  ⟨c2_amended.1 Nat 5 "k" [], c2_amended.2 [("fw", fwCfg)] [] "fw" rlCtx 1000 0 fwCfg rfl⟩

/-! ## Claim C8 -/

/-- C8 counterexample.  On a manager with a memory tier and a reachable
redis tier, `delete("k")` returns `true` although no tier held the key:
the redis tier's `delete` calls `removeItem` and returns `true`
unconditionally when its client exists, without checking presence. -/
theorem c8_counterexample :
    (CacheManager.delete "k"
        [TierState.memory 1000 ([] : List (String × CacheEntry Nat)),
         TierState.redis true []]).1 = true ∧
    (TierState.memory 1000 ([] : List (String × CacheEntry Nat))).holdsKey "k" = false ∧
    (TierState.redis true ([] : List (String × CacheEntry Nat))).holdsKey "k" = false := by
  exact ⟨rfl, rfl, rfl⟩

/-- C8 (amended): `delete(key)` removes the key from every tier, and returns
true iff some tier's `delete` reports success — which for the memory tier
means the key was actually held, but for redis/browser tiers merely means
the backend was reachable (their `removeItem` path returns `true` without
checking presence).  Only for a memory-only manager does the claim's
"held the key" reading hold. -/
theorem c8_amended {V : Type} (key : String) (tiers : List (TierState V)) :
    (CacheManager.delete key tiers).1 = tiers.any (tierDeleteReports key) := by
  induction tiers with
  | nil => rfl
  | cons t ts ih =>
    cases t with
    | memory maxE entries =>
      simp [CacheManager.delete, TierState.delete, tierDeleteReports, ih,
        mapDelete_fst]
    | redis avail entries =>
      by_cases h : avail
      · simp [CacheManager.delete, TierState.delete, tierDeleteReports, ih, h]
      · simp [CacheManager.delete, TierState.delete, tierDeleteReports, ih, h]
    | browser avail entries =>
      by_cases h : avail
      · simp [CacheManager.delete, TierState.delete, tierDeleteReports, ih, h]
      · simp [CacheManager.delete, TierState.delete, tierDeleteReports, ih, h]
    | faulty =>
      simp [CacheManager.delete, TierState.delete, tierDeleteReports, ih]

/-! ## Claim C9 -/

/-- The `*tag*` patterns built by `invalidateByTags` start with a bare
quantifier and are rejected by `new RegExp`. -/
theorem jsRegExpOk_star (tag : String) : jsRegExpOk ("*" ++ tag ++ "*") = false := by
  have h : ("*" ++ tag ++ "*").toList = '*' :: (tag.toList ++ ['*']) := by
    show ("*" ++ tag ++ "*").data = '*' :: (tag.data ++ ['*'])
    rw [String.data_append, String.data_append]
    rfl
  unfold jsRegExpOk
  rw [h]
  rfl

/-- A `clear` call with a `*tag*` pattern removes nothing from any tier and counts
0: the memory tier throws the RegExp SyntaxError (caught by the manager),
redis declines pattern clears, the browser tier catches the SyntaxError
itself, and a throwing tier is caught. -/
theorem clear_star {V : Type} (rt : String → String → Bool) (tag : String) :
    ∀ tiers : List (TierState V),
    CacheManager.clear rt (some ("*" ++ tag ++ "*")) tiers = (0, tiers) := by
  intro tiers
  induction tiers with
  | nil => rfl
  | cons t ts ih =>
    have hpat := jsRegExpOk_star tag
    cases t with
    | memory maxE entries =>
      simp [CacheManager.clear, TierState.clear, hpat, ih]
    | redis avail entries =>
      by_cases h : avail <;> simp [CacheManager.clear, TierState.clear, h, ih]
    | browser avail entries =>
      by_cases h : avail
      · by_cases he : entries.isEmpty <;>
          simp [CacheManager.clear, TierState.clear, h, he, hpat, ih]
      · simp [CacheManager.clear, TierState.clear, h, ih]
    | faulty =>
      simp [CacheManager.clear, TierState.clear, ih]

/-- C9: for every tag list, `invalidateByTags` builds the pattern `*tag*`
for each tag; the memory tier's `clear` compiles it with `new RegExp`,
which rejects it, the per-tier failure is caught by the manager, and so
`invalidateByTags` removes nothing from any tier (in particular the memory
tier) and returns 0, regardless of how many live entries carry the tag. -/
theorem c9_theorem {V : Type} (rt : String → String → Bool) (tags : List String)
    (tiers : List (TierState V)) :
    CacheManager.invalidateByTags rt tags tiers = (0, tiers) := by
  induction tags generalizing tiers with
  | nil => rfl
  | cons tag rest ih =>
    simp [CacheManager.invalidateByTags, clear_star rt tag tiers, ih]

/-! ## Claim C10 -/

/-- C10: on a memory-only manager holding a live entry whose stored value is
the JavaScript `null`, `getOrSet` does not return the cached value: `get`
signals the hit as `null`, which `getOrSet`'s `cached !== null` test reads
as a miss, so the factory is invoked, its value stored over the entry and
returned — a cached `null` is indistinguishable from a miss at the
`getOrSet` interface. -/
theorem c10_theorem {A : Type} (defaultTtl now maxE : Nat) (key : String)
    (factoryVal : Option A) (ttl : Option Nat) (tags : List String)
    (entries : List (String × CacheEntry (Option A))) (e : CacheEntry (Option A))
    (hget : mapGet key entries = some e) (hnull : e.value = none)
    (hlive : isExpired now e = false) :
    ∃ entries₂,
      CacheManager.getOrSet defaultTtl now key factoryVal ttl tags
          [TierState.memory maxE entries]
        = Except.ok (factoryVal, [TierState.memory maxE entries₂], true) ∧
      ∃ e₂, mapGet key entries₂ = some e₂ ∧ e₂.value = factoryVal := by
  have hgetres : TierState.get now key (TierState.memory maxE entries)
      = Except.ok
          (some { e with accessCount := e.accessCount + 1, lastAccessed := now },
           TierState.memory maxE
             (mapSet key { e with accessCount := e.accessCount + 1, lastAccessed := now }
               entries)) := by
    simp [TierState.get, hget, hlive]
  refine ⟨MemoryCacheTier.set maxE now key factoryVal
      (match ttl with
       | none => defaultTtl
       | some t => if t == 0 then defaultTtl else t) tags
      (mapSet key { e with accessCount := e.accessCount + 1, lastAccessed := now } entries),
    ?_, ?_⟩
  · unfold CacheManager.getOrSet CacheManager.get CacheManager.getLoop
    rw [hgetres]
    simp [promoteToHigherTiers, jsNullJoin, hnull, CacheManager.set, tierSetCaught,
      TierState.set]
  · refine ⟨generateEntry now key factoryVal
      (match ttl with
       | none => defaultTtl
       | some t => if t == 0 then defaultTtl else t) tags, ?_, rfl⟩
    unfold MemoryCacheTier.set
    exact mapGet_mapSet_self key _ _

/-- C10 witness: the theorem evaluated on a concrete store holding a live
null entry. -/
theorem c10_witness :
    ∃ entries₂,
      CacheManager.getOrSet 900 5 "k" (some 42) none [] [TierState.memory 500 [("k", nullEntry)]]
        = Except.ok (some 42, [TierState.memory 500 entries₂], true) ∧
      ∃ e₂, mapGet "k" entries₂ = some e₂ ∧ e₂.value = some 42 :=
  c10_theorem 900 5 500 "k" (some 42) none [] [("k", nullEntry)] nullEntry rfl rfl rfl

/-! ## Claim C5 -/

/-- When the strategy admits the request, `runStrategy` saves a state with
`consecutiveFailures = 0` and `backoffUntil` cleared. -/
theorem runStrategy_allowed (config : RateLimitConfig) (key : String)
    (st : RateLimitState) (states : List (String × RateLimitState)) (now : Nat)
    (rand : ℚ) :
    (RateLimiter.runStrategy config key st states now rand).1.allowed = true →
    ∃ st₂, (RateLimiter.runStrategy config key st states now rand).2
        = mapSet key st₂ states ∧
      st₂.consecutiveFailures = 0 ∧ st₂.backoffUntil = none := by
  intro h
  unfold RateLimiter.runStrategy at h ⊢
  dsimp only at h ⊢
  by_cases hA : (strategyCheck config.strategy config st now).1.allowed
  · refine ⟨{ (strategyCheck config.strategy config st now).2 with
        consecutiveFailures := 0, backoffUntil := none }, ?_, rfl, rfl⟩
    simp [hA]
  · exfalso
    rcases hbo : config.backoff with _ | bo
    · simp [hA, hbo] at h
    · by_cases hen : bo.enabled <;> simp [hA, hbo, hen] at h

/-- C5: while `now < backoffUntil`, `checkLimit` denies immediately with the
pure backoff result (computed from `backoffUntil` alone, independent of the
configured admission algorithm) and leaves the state map untouched — in
particular `consecutiveFailures` is not incremented; and any admitted
request is saved with `consecutiveFailures = 0` and `backoffUntil`
cleared. -/
theorem c5_theorem (configs : List (String × RateLimitConfig))
    (states : List (String × RateLimitState)) (name : String)
    (ctx : RateLimitContext) (now : Nat) (rand : ℚ) (cfg : RateLimitConfig)
    (st : RateLimitState) (b : Nat)
    (hc : mapGet name configs = some cfg)
    (hs : mapGet (RateLimiter.generateKey name ctx) states = some st) :
    (st.backoffUntil = some b → now < b →
      RateLimiter.checkLimit configs states name ctx now rand
        = Except.ok (RateLimiter.backoffEarlyResult cfg b now, states) ∧
      (RateLimiter.backoffEarlyResult cfg b now).allowed = false ∧
      (RateLimiter.backoffEarlyResult cfg b now).retryAfter
        = some (ceilDiv (b - now) 1000)) ∧
    (∀ res states₂,
      RateLimiter.checkLimit configs states name ctx now rand
        = Except.ok (res, states₂) →
      res.allowed = true →
      ∃ st₂, mapGet (RateLimiter.generateKey name ctx) states₂ = some st₂ ∧
        st₂.consecutiveFailures = 0 ∧ st₂.backoffUntil = none) := by
  have hgs : RateLimiter.getState (RateLimiter.generateKey name ctx) states
      = (st, states) := by
    unfold RateLimiter.getState
    rw [hs]
  constructor
  · intro hbU hnb
    refine ⟨?_, rfl, rfl⟩
    unfold RateLimiter.checkLimit
    rw [hc]
    dsimp only
    rw [hgs]
    dsimp only
    rw [hbU]
    simp [hnb]
  · intro res states₂ heq hallow
    unfold RateLimiter.checkLimit at heq
    rw [hc] at heq
    dsimp only at heq
    rw [hgs] at heq
    dsimp only at heq
    rcases hbU : st.backoffUntil with _ | b'
    · rw [hbU] at heq
      dsimp only at heq
      have hpair := Except.ok.inj heq
      have h1 : (RateLimiter.runStrategy cfg (RateLimiter.generateKey name ctx)
          st states now rand).1 = res := congrArg Prod.fst hpair
      have h2 : (RateLimiter.runStrategy cfg (RateLimiter.generateKey name ctx)
          st states now rand).2 = states₂ := congrArg Prod.snd hpair
      obtain ⟨st₂, hmap, hcf, hbu⟩ :=
        runStrategy_allowed cfg (RateLimiter.generateKey name ctx) st states now rand
          (by rw [h1]; exact hallow)
      refine ⟨st₂, ?_, hcf, hbu⟩
      rw [← h2, hmap]
      exact mapGet_mapSet_self _ _ _
    · rw [hbU] at heq
      dsimp only at heq
      by_cases hn : now < b'
      · rw [if_pos hn] at heq
        have hpair := Except.ok.inj heq
        have h1 : RateLimiter.backoffEarlyResult cfg b' now = res :=
          congrArg Prod.fst hpair
        exfalso
        rw [← h1] at hallow
        simp [RateLimiter.backoffEarlyResult] at hallow
      · rw [if_neg hn] at heq
        have hpair := Except.ok.inj heq
        have h1 : (RateLimiter.runStrategy cfg (RateLimiter.generateKey name ctx)
            st states now rand).1 = res := congrArg Prod.fst hpair
        have h2 : (RateLimiter.runStrategy cfg (RateLimiter.generateKey name ctx)
            st states now rand).2 = states₂ := congrArg Prod.snd hpair
        obtain ⟨st₂, hmap, hcf, hbu⟩ :=
          runStrategy_allowed cfg (RateLimiter.generateKey name ctx) st states now rand
            (by rw [h1]; exact hallow)
        refine ⟨st₂, ?_, hcf, hbu⟩
        rw [← h2, hmap]
        exact mapGet_mapSet_self _ _ _

/-- C5 witness: both halves of the theorem applied at concrete inputs — a
key in active backoff until t=5000 checked at t=1000, and an admitted
fixed-window check whose saved state has `consecutiveFailures = 0` and no
`backoffUntil`. -/
theorem c5_witness :
    (RateLimiter.checkLimit [("auth", boCfg)] [("auth:ip:1.2.3.4", backoffSt)]
        "auth" rlCtx 1000 0
      = Except.ok (RateLimiter.backoffEarlyResult boCfg 5000 1000,
          [("auth:ip:1.2.3.4", backoffSt)]) ∧
      (RateLimiter.backoffEarlyResult boCfg 5000 1000).allowed = false ∧
      (RateLimiter.backoffEarlyResult boCfg 5000 1000).retryAfter
        = some (ceilDiv (5000 - 1000) 1000)) ∧
    (∃ st₂, mapGet (RateLimiter.generateKey "fw" rlCtx)
        [("fw:ip:1.2.3.4", fwStOut)] = some st₂ ∧
      st₂.consecutiveFailures = 0 ∧ st₂.backoffUntil = none) :=
  ⟨(c5_theorem [("auth", boCfg)] [("auth:ip:1.2.3.4", backoffSt)] "auth" rlCtx 1000 0
      boCfg backoffSt 5000 rfl rfl).1 rfl (by norm_num),
   (c5_theorem [("fw", fwCfg)] [("fw:ip:1.2.3.4", initRateLimitState)] "fw" rlCtx 1000 0
      fwCfg initRateLimitState 0 rfl rfl).2 fwResOut [("fw:ip:1.2.3.4", fwStOut)] rfl rfl⟩

/-! ## Claim C4 -/

/-- C4 counterexample.  Config: 2 requests per 1-second window.  Checks at
t=1000ms, 1001ms, 1999ms — all inside one window-length interval
(span 999ms < 1000ms) — are all admitted from the primary pool: the first
check initializes a full bucket (2 tokens), and at t=1999 the proportional
refill has already returned `floor(999/1000 * 2) = 1` token.  3 primary
admissions exceed the claimed bound of `requests = 2`. -/
theorem c4_counterexample :
    (tbRun tbCfg2 [1000, 1001, 1999] initRateLimitState).1 = 3 ∧
    tbCfg2.requests < 3 ∧
    1999 - 1000 < tbCfg2.window * 1000 := by
  constructor
  · norm_num [tbRun, tbPrimaryStep, TokenBucketStrategy.check, tbRefill, tbInit,
      tbBurstAvail, tbCfg2, initRateLimitState]
  · exact ⟨by norm_num [tbCfg2], by norm_num [tbCfg2]⟩


/-- One token-bucket check admits from the primary pool only by spending a
token of the refilled pool, and leaves `lastRefill` where the refill step
put it. -/
theorem tb_admit (cfg : RateLimitConfig) (st : RateLimitState) (t : Nat) :
    ((if tbPrimaryStep cfg st t then 1 else 0) : Nat)
        + (TokenBucketStrategy.check cfg st t).2.tokens
      ≤ (tbRefill cfg (tbInit cfg st t) t).tokens ∧
    (TokenBucketStrategy.check cfg st t).2.lastRefill
      = (tbRefill cfg (tbInit cfg st t) t).lastRefill := by
  unfold TokenBucketStrategy.check tbPrimaryStep
  dsimp only
  by_cases hA : (0:ℚ) < ((tbRefill cfg (tbInit cfg st t) t).tokens : ℚ)
      + tbBurstAvail cfg (tbRefill cfg (tbInit cfg st t) t)
  · by_cases hT : 0 < (tbRefill cfg (tbInit cfg st t) t).tokens
    · simp [hA, hT]
      omega
    · by_cases hB : (0:ℚ) < tbBurstAvail cfg (tbRefill cfg (tbInit cfg st t) t)
      · simp [hA, hT, hB]
      · simp [hA, hT, hB]
  · simp [hA]

/-- The refill step adds at most `floor(elapsed * requests / windowMs)`
tokens and moves `lastRefill` forward, at most to `now`. -/
theorem tbRefill_bound (cfg : RateLimitConfig) (st : RateLimitState) (t : Nat)
    (hle : st.lastRefill ≤ t) :
    (tbRefill cfg st t).tokens
        ≤ st.tokens + ((tbRefill cfg st t).lastRefill - st.lastRefill) * cfg.requests
            / (cfg.window * 1000) ∧
    st.lastRefill ≤ (tbRefill cfg st t).lastRefill ∧
    (tbRefill cfg st t).lastRefill ≤ t := by
  unfold tbRefill
  dsimp only
  by_cases h : 0 < (t - st.lastRefill) * cfg.requests / (cfg.window * 1000)
  · simp only [h, if_true]
    refine ⟨?_, hle, le_refl t⟩
    exact le_trans (Nat.min_le_right _ _) (le_refl _)
  · simp only [h, if_false]
    refine ⟨?_, le_refl _, hle⟩
    simp

/-- The function `tbInit` is the identity on a state already stamped with a refill
time. -/
theorem tbInit_ne_zero (cfg : RateLimitConfig) (st : RateLimitState) (t : Nat)
    (h : st.lastRefill ≠ 0) : tbInit cfg st t = st := by
  unfold tbInit
  simp [h]

/-- Invariant of a token-bucket run over monotone check times inside a
window-length interval starting at `t₁`: the primary admissions plus the
remaining tokens never exceed the initial tokens plus the proportional
refill credit accumulated since the initial `lastRefill`, and `lastRefill`
stays inside the interval. -/
theorem tbRun_invariant (cfg : RateLimitConfig) (hw : 0 < cfg.window) (t₁ : Nat) :
    ∀ (ts : List Nat) (st : RateLimitState) (lastT : Nat),
    List.Chain (· ≤ ·) lastT ts →
    (∀ t ∈ ts, t < t₁ + cfg.window * 1000) →
    lastT < t₁ + cfg.window * 1000 →
    t₁ ≤ st.lastRefill → st.lastRefill ≤ lastT → 1 ≤ st.lastRefill →
    (tbRun cfg ts st).1 + (tbRun cfg ts st).2.tokens
        ≤ st.tokens + ((tbRun cfg ts st).2.lastRefill - st.lastRefill) * cfg.requests
            / (cfg.window * 1000) ∧
    st.lastRefill ≤ (tbRun cfg ts st).2.lastRefill ∧
    (tbRun cfg ts st).2.lastRefill < t₁ + cfg.window * 1000 ∧
    1 ≤ (tbRun cfg ts st).2.lastRefill ∧
    t₁ ≤ (tbRun cfg ts st).2.lastRefill := by
  intro ts
  induction ts with
  | nil =>
    intro st lastT _ _ hlt ht₁ hle h1
    refine ⟨?_, le_refl _, lt_of_le_of_lt hle hlt, h1, ht₁⟩
    simp [tbRun]
  | cons t ts ih =>
    intro st lastT hchain hin hlt ht₁ hle h1
    have hct := List.chain_cons.mp hchain
    have hlet : st.lastRefill ≤ t := le_trans hle hct.1
    have hstep := tb_admit cfg st t
    rw [tbInit_ne_zero cfg st t (by omega)] at hstep
    have hrefill := tbRefill_bound cfg st t hlet
    have hl2a : t₁ ≤ (TokenBucketStrategy.check cfg st t).2.lastRefill := by
      rw [hstep.2]; omega
    have hl2b : (TokenBucketStrategy.check cfg st t).2.lastRefill ≤ t := by
      rw [hstep.2]; exact hrefill.2.2
    have hl2c : 1 ≤ (TokenBucketStrategy.check cfg st t).2.lastRefill := by
      rw [hstep.2]; omega
    have ih' := ih (TokenBucketStrategy.check cfg st t).2 t hct.2
      (fun x hx => hin x (List.mem_cons_of_mem _ hx))
      (hin t (List.mem_cons_self t ts)) hl2a hl2b hl2c
    have hrun : tbRun cfg (t :: ts) st
        = ((if tbPrimaryStep cfg st t then 1 else 0)
            + (tbRun cfg ts (TokenBucketStrategy.check cfg st t).2).1,
           (tbRun cfg ts (TokenBucketStrategy.check cfg st t).2).2) := rfl
    rw [hrun]
    dsimp only
    have hdiv : ((TokenBucketStrategy.check cfg st t).2.lastRefill - st.lastRefill)
            * cfg.requests / (cfg.window * 1000)
        + ((tbRun cfg ts (TokenBucketStrategy.check cfg st t).2).2.lastRefill
            - (TokenBucketStrategy.check cfg st t).2.lastRefill)
            * cfg.requests / (cfg.window * 1000)
        ≤ ((tbRun cfg ts (TokenBucketStrategy.check cfg st t).2).2.lastRefill
            - st.lastRefill) * cfg.requests / (cfg.window * 1000) := by
      have hWpos : 0 < cfg.window * 1000 := by positivity
      have h := natDiv_add_le
        (((TokenBucketStrategy.check cfg st t).2.lastRefill - st.lastRefill) * cfg.requests)
        (((tbRun cfg ts (TokenBucketStrategy.check cfg st t).2).2.lastRefill
            - (TokenBucketStrategy.check cfg st t).2.lastRefill) * cfg.requests)
        (cfg.window * 1000) hWpos
      rw [← Nat.add_mul] at h
      have heq : (TokenBucketStrategy.check cfg st t).2.lastRefill - st.lastRefill
          + ((tbRun cfg ts (TokenBucketStrategy.check cfg st t).2).2.lastRefill
            - (TokenBucketStrategy.check cfg st t).2.lastRefill)
          = (tbRun cfg ts (TokenBucketStrategy.check cfg st t).2).2.lastRefill
            - st.lastRefill := by
        have := ih'.2.1
        omega
      rw [heq] at h
      exact h
    refine ⟨?_, by omega, ih'.2.2.1, ih'.2.2.2.1, by omega⟩
    have hb1 := hstep.1
    have hb2 := hrefill.1
    have hb3 := ih'.1
    rw [← hstep.2] at hb2
    omega

/-- C4 (amended): in any token-bucket run whose checks all fall within one
window-length interval beginning at the first check (the point at which the
per-key state is initialized with a full bucket), at most
`2 * requests - 1` calls are admitted from the primary pool — up to
`requests` from the initially full bucket plus at most `requests - 1`
refilled proportionally inside the window.  The claimed bound of `requests`
is exceeded because the bucket starts full and refill credit accrues within
the same window. -/
theorem c4_amended (cfg : RateLimitConfig) (t₁ : Nat) (ts : List Nat)
    (hw : 0 < cfg.window) (hr : 0 < cfg.requests) (h1 : 1 ≤ t₁)
    (hchain : List.Chain (· ≤ ·) t₁ ts)
    (hin : ∀ t ∈ ts, t < t₁ + cfg.window * 1000) :
    (tbRun cfg (t₁ :: ts) initRateLimitState).1 ≤ 2 * cfg.requests - 1 := by
  have hfirst : tbRefill cfg (tbInit cfg initRateLimitState t₁) t₁
      = { initRateLimitState with tokens := cfg.requests, lastRefill := t₁ } := by
    unfold tbInit initRateLimitState tbRefill
    simp
  have hstep := tb_admit cfg initRateLimitState t₁
  rw [hfirst] at hstep
  have htok : ({ initRateLimitState with
      tokens := cfg.requests, lastRefill := t₁ } : RateLimitState).tokens
      = cfg.requests := rfl
  have hlr : ({ initRateLimitState with
      tokens := cfg.requests, lastRefill := t₁ } : RateLimitState).lastRefill = t₁ := rfl
  rw [htok, hlr] at hstep
  have hinv := tbRun_invariant cfg hw t₁ ts
    (TokenBucketStrategy.check cfg initRateLimitState t₁).2 t₁ hchain hin
    (by omega) (by omega) (by omega) (by omega)
  have hrun : tbRun cfg (t₁ :: ts) initRateLimitState
      = ((if tbPrimaryStep cfg initRateLimitState t₁ then 1 else 0)
          + (tbRun cfg ts (TokenBucketStrategy.check cfg initRateLimitState t₁).2).1,
         (tbRun cfg ts (TokenBucketStrategy.check cfg initRateLimitState t₁).2).2) := rfl
  rw [hrun]
  dsimp only
  have hWpos : 0 < cfg.window * 1000 := by positivity
  have hfin : (tbRun cfg ts
        (TokenBucketStrategy.check cfg initRateLimitState t₁).2).2.lastRefill
      - (TokenBucketStrategy.check cfg initRateLimitState t₁).2.lastRefill
      ≤ cfg.window * 1000 - 1 := by
    have h2 := hinv.2.2.1
    have h3 := hinv.2.2.2.2
    omega
  have hdivle : ((tbRun cfg ts
          (TokenBucketStrategy.check cfg initRateLimitState t₁).2).2.lastRefill
        - (TokenBucketStrategy.check cfg initRateLimitState t₁).2.lastRefill)
        * cfg.requests / (cfg.window * 1000)
      ≤ cfg.requests - 1 := by
    refine le_trans (Nat.div_le_div_right (Nat.mul_le_mul_right _ hfin)) ?_
    exact natDiv_pred_le (cfg.window * 1000) cfg.requests hWpos hr
  have hb1 := hstep.1
  have hb3 := hinv.1
  rw [hstep.2] at hb3
  omega

/-- C4 witness: the amended bound applied to the counterexample trace (3
primary admissions ≤ 2·2−1 = 3). -/
theorem c4_witness :
    (tbRun tbCfg2 [1000, 1001, 1999] initRateLimitState).1 ≤ 2 * tbCfg2.requests - 1 :=
  c4_amended tbCfg2 1000 [1001, 1999] (by norm_num [tbCfg2]) (by norm_num [tbCfg2])
    (by norm_num)
    (List.Chain.cons (by norm_num) (List.Chain.cons (by norm_num) List.Chain.nil))
    (by
      intro t ht
      simp only [List.mem_cons, List.not_mem_nil, or_false] at ht
      rcases ht with h | h <;> subst h <;> norm_num [tbCfg2])

/-! ## Claim C3 -/

/-- The state `SlidingWindowStrategy.check` stores: the pruned history, with
the admission timestamp appended when admitted. -/
theorem sw_check_history (cfg : RateLimitConfig) (st : RateLimitState) (t : Nat) :
    (SlidingWindowStrategy.check cfg st t).2.requestHistory
      = (if (st.requestHistory.filter
            (fun y => decide (t - cfg.window * 1000 < y))).length < cfg.requests
         then st.requestHistory.filter
            (fun y => decide (t - cfg.window * 1000 < y)) ++ [t]
         else st.requestHistory.filter
            (fun y => decide (t - cfg.window * 1000 < y))) := by
  unfold SlidingWindowStrategy.check
  dsimp only
  by_cases h : (st.requestHistory.filter
      (fun y => decide (t - cfg.window * 1000 < y))).length < cfg.requests
  · simp [h]
  · simp [h]

/-- The admission flag of a sliding-window check is exactly "fewer than
`requests` timestamps currently inside the trailing window". -/
theorem sw_check_allowed (cfg : RateLimitConfig) (st : RateLimitState) (t : Nat) :
    (SlidingWindowStrategy.check cfg st t).1.allowed
      = decide ((st.requestHistory.filter
          (fun y => decide (t - cfg.window * 1000 < y))).length < cfg.requests) := rfl

theorem swTrace_cons (cfg : RateLimitConfig) (st : RateLimitState) (t : Nat)
    (ts : List Nat) :
    swTrace cfg st (t :: ts)
      = (t, (SlidingWindowStrategy.check cfg st t).1.allowed,
          (SlidingWindowStrategy.check cfg st t).2)
        :: swTrace cfg (SlidingWindowStrategy.check cfg st t).2 ts := rfl

theorem admittedTimes_cons (x : Nat × Bool × RateLimitState)
    (l : List (Nat × Bool × RateLimitState)) :
    admittedTimes (x :: l) = (if x.2.1 then [x.1] else []) ++ admittedTimes l := by
  unfold admittedTimes
  by_cases h : x.2.1 <;> simp [h]

/-- Invariant of a sliding-window run: provided the stored history is
exactly the prior admissions still inside the last check's trailing window
and is no longer than `requests`, every later step keeps the history within
`requests` timestamps and admits only when fewer than `requests` prior
admissions fell within its trailing window. -/
theorem sw_main (cfg : RateLimitConfig) (hw : 0 < cfg.window) :
    ∀ (ts : List Nat) (st : RateLimitState) (A : List Nat) (lastT : Nat),
    st.requestHistory
      = A.filter (fun x => decide (lastT - cfg.window * 1000 < x)) →
    st.requestHistory.length ≤ cfg.requests →
    List.Chain (· ≤ ·) lastT ts →
    (∀ t ∈ ts, 1 ≤ t) →
    ∀ pre x post, swTrace cfg st ts = pre ++ x :: post →
      x.2.2.requestHistory.length ≤ cfg.requests ∧
      (x.2.1 = true →
        ((A ++ admittedTimes pre).filter
            (fun y => decide (x.1 - cfg.window * 1000 < y))).length < cfg.requests) := by
  intro ts
  induction ts with
  | nil =>
    intro st A lastT _ _ _ _ pre x post h
    rw [show swTrace cfg st [] = [] from rfl] at h
    exact absurd h (by simp)
  | cons t ts ih =>
    intro st A lastT hinv hlen hchain hpos pre x post h
    have hct := List.chain_cons.mp hchain
    have ht1 : 1 ≤ t := hpos t (List.mem_cons_self t ts)
    have hfilter : st.requestHistory.filter (fun y => decide (t - cfg.window * 1000 < y))
        = A.filter (fun y => decide (t - cfg.window * 1000 < y)) := by
      rw [hinv, List.filter_filter]
      refine List.filter_congr ?_
      intro a _
      by_cases hq : t - cfg.window * 1000 < a
      · have hp : lastT - cfg.window * 1000 < a := by
          have := hct.1
          omega
        simp [hp, hq]
      · simp [hq]
    have hlenf : (st.requestHistory.filter
        (fun y => decide (t - cfg.window * 1000 < y))).length ≤ cfg.requests :=
      le_trans (List.length_filter_le _ _) hlen
    have hlen2 : (SlidingWindowStrategy.check cfg st t).2.requestHistory.length
        ≤ cfg.requests := by
      rw [sw_check_history]
      by_cases hall : (st.requestHistory.filter
          (fun y => decide (t - cfg.window * 1000 < y))).length < cfg.requests
      · rw [if_pos hall]
        simp only [List.length_append, List.length_singleton]
        omega
      · rw [if_neg hall]
        exact hlenf
    have hinv2 : (SlidingWindowStrategy.check cfg st t).2.requestHistory
        = (A ++ (if (SlidingWindowStrategy.check cfg st t).1.allowed then [t] else [])).filter
            (fun y => decide (t - cfg.window * 1000 < y)) := by
      rw [sw_check_history, sw_check_allowed, List.filter_append, hfilter]
      by_cases hall : (st.requestHistory.filter
          (fun y => decide (t - cfg.window * 1000 < y))).length < cfg.requests
      · rw [hfilter] at hall
        simp only [hall, decide_True, if_true]
        have htt : decide (t - cfg.window * 1000 < t) = true := by
          have : t - cfg.window * 1000 < t := by omega
          simpa using this
        have h0t : 0 < t := ht1
        simp [List.filter_singleton, htt, h0t, hw]
      · rw [hfilter] at hall
        simp only [hall, decide_False, if_false]
        simp
    rw [swTrace_cons] at h
    cases pre with
    | nil =>
      simp only [List.nil_append, List.cons.injEq] at h
      obtain ⟨hx, hpost⟩ := h
      subst hx
      constructor
      · exact hlen2
      · intro hall
        rw [sw_check_allowed] at hall
        have hcond := of_decide_eq_true hall
        rw [hfilter] at hcond
        unfold admittedTimes
        simpa using hcond
    | cons p₀ pre' =>
      simp only [List.cons_append, List.cons.injEq] at h
      obtain ⟨hp₀, hrest⟩ := h
      subst hp₀
      have ih' := ih (SlidingWindowStrategy.check cfg st t).2
        (A ++ (if (SlidingWindowStrategy.check cfg st t).1.allowed then [t] else []))
        t hinv2 hlen2 hct.2 (fun y hy => hpos y (List.mem_cons_of_mem _ hy))
        pre' x post hrest
      refine ⟨ih'.1, ?_⟩
      intro hall
      have h2 := ih'.2 hall
      rw [admittedTimes_cons]
      dsimp only
      rw [← List.append_assoc]
      exact h2

/-- C3: starting from a fresh state, a sliding-window run over nondecreasing
check times (window ≥ 1s, positive clock) admits a request only when fewer
than `requests` prior admissions have timestamps inside its trailing
window, and after every check the stored `requestHistory` holds at most
`requests` timestamps. -/
theorem c3_theorem (cfg : RateLimitConfig) (ts : List Nat) (hw : 0 < cfg.window)
    (hpos : ∀ t ∈ ts, 1 ≤ t) (hchain : List.Chain' (· ≤ ·) ts) :
    ∀ pre x post, swTrace cfg initRateLimitState ts = pre ++ x :: post →
      x.2.2.requestHistory.length ≤ cfg.requests ∧
      (x.2.1 = true →
        ((admittedTimes pre).filter
            (fun y => decide (x.1 - cfg.window * 1000 < y))).length < cfg.requests) := by
  have hchain0 : List.Chain (· ≤ ·) 0 ts := by
    cases ts with
    | nil => exact List.Chain.nil
    | cons t ts => exact List.Chain.cons (Nat.zero_le t) hchain
  intro pre x post h
  have := sw_main cfg hw ts initRateLimitState [] 0 (by simp [initRateLimitState])
    (by simp [initRateLimitState]) hchain0 hpos pre x post h
  simpa using this

/-- C3 witness: the theorem applied to the one-check trace of `swCfg`
(1 request per 60 s) at t=1000. -/
theorem c3_witness :
    swSt1.requestHistory.length ≤ swCfg.requests ∧
    (true = true →
      ((admittedTimes []).filter
          (fun y => decide (1000 - swCfg.window * 1000 < y))).length < swCfg.requests) :=
  c3_theorem swCfg [1000] (by norm_num [swCfg]) (by simp)
    (by simp) [] (1000, true, swSt1) [] rfl
